import Mathlib

/-!
Verification of the pronoun pro-drop annotation app (`src/app.py`) against its
natural-language specification.

The embedding models the app's pure data transformations directly:

* the Supabase `annotations` table is a list of `DbAnnRow` (one element per
  stored row; list order is insertion order, used only as a multiset),
* Python dicts whose keys may be absent are structures with `Option` fields,
  `dict.get(k, d)` becoming `Option.getD`,
* `save_annotations_for_sentence` is delete-then-insert on the row list, with
  `savePartial` exposing each intermediate state of the stepwise delete/insert
  sequence (the source issues one network call per step, so each intermediate
  state is observable if a later step fails),
* CSV serialisation (`DataFrame.to_csv` with the default minimal quoting) is
  rendered explicitly, with a character-level parser for the re-import
  direction.
-/

namespace AnnotApp

/-- A row of the Supabase `annotations` table.  The insert in
`save_annotations_for_sentence` always provides `annotator_id`, `poem_id`,
`sentence_id`, `no_pronoun`, and provides the pronoun fields only when
`no_pronoun` is false; absent / NULL fields are `none`. -/
structure DbAnnRow where
  annotator_id : String
  poem_id : String
  sentence_id : Int
  no_pronoun : Option Bool
  pronoun : Option String
  lemma_ : Option String
  person : Option String
  number : Option String
  is_dropped : Option Bool
  position : Option Int
deriving DecidableEq, Repr

/-- A record handed to `save_annotations_for_sentence` (a Python dict).
`a["ID"]` is accessed directly in the source, so `ID` is a required field;
every other key is read with `a.get(key, default)`, so it is an `Option`. -/
structure SaveRecord where
  ID : String
  sentence_id : Option Int
  no_pronoun : Option Bool
  pronoun : Option String
  lemma_ : Option String
  person : Option String
  number : Option String
  is_dropped : Option Bool
  position : Option Int
deriving DecidableEq, Repr

/-- The row dict built for one record inside `save_annotations_for_sentence`:
key fields always, pronoun fields only when the record is not a
no-pronoun marker (mirroring the `if not a.get("no_pronoun")` block). -/
def rowOfRecord (annotator_id : String) (a : SaveRecord) : DbAnnRow :=
  if a.no_pronoun.getD false then
    { annotator_id := annotator_id
      poem_id := a.ID
      sentence_id := a.sentence_id.getD 0
      no_pronoun := some true
      pronoun := none, lemma_ := none, person := none, number := none
      is_dropped := none, position := none }
  else
    { annotator_id := annotator_id
      poem_id := a.ID
      sentence_id := a.sentence_id.getD 0
      no_pronoun := some false
      pronoun := some (a.pronoun.getD "")
      lemma_ := some (a.lemma_.getD (a.pronoun.getD ""))
      person := some (a.person.getD "")
      number := some (a.number.getD "")
      is_dropped := some (a.is_dropped.getD true)
      position := some (a.position.getD (a.sentence_id.getD 0)) }

/-- The delete filter of `save_annotations_for_sentence`: a stored row matches
the saved key when all three key columns agree. -/
def keyMatches (annotator_id poem_id : String) (sentence_id : Int)
    (r : DbAnnRow) : Bool :=
  r.annotator_id == annotator_id && r.poem_id == poem_id &&
    r.sentence_id == sentence_id

/-- `save_annotations_for_sentence`: delete every row matching the
(annotator, poem, sentence) key, then insert one row per record. -/
def save_annotations_for_sentence (db : List DbAnnRow) (annotator_id poem_id : String)
    (sentence_id : Int) (records : List SaveRecord) : List DbAnnRow :=
  db.filter (fun r => !keyMatches annotator_id poem_id sentence_id r) ++
    records.map (rowOfRecord annotator_id)

/-- The observable table state after the first `k` network calls of
`save_annotations_for_sentence`: call 0 is the state before the save, call 1
is the delete, call `1 + i` is the insert of record `i`.  The source issues
each of these as a separate `.execute()`, so a failure part-way leaves the
table in exactly one of these states. -/
def savePartial (db : List DbAnnRow) (annotator_id poem_id : String)
    (sentence_id : Int) (records : List SaveRecord) (k : Nat) : List DbAnnRow :=
  if k = 0 then db
  else
    db.filter (fun r => !keyMatches annotator_id poem_id sentence_id r) ++
      (records.take (k - 1)).map (rowOfRecord annotator_id)

/-- Rows currently stored under one (annotator, poem, sentence) key. -/
def rowsFor (db : List DbAnnRow) (annotator_id poem_id : String)
    (sentence_id : Int) : List DbAnnRow :=
  db.filter (keyMatches annotator_id poem_id sentence_id)

-- A completed save is the final step of the stepwise sequence.
theorem save_eq_savePartial_last (db : List DbAnnRow) (annotator_id poem_id : String)
    (sentence_id : Int) (records : List SaveRecord) :
    save_annotations_for_sentence db annotator_id poem_id sentence_id records =
      savePartial db annotator_id poem_id sentence_id records (records.length + 1) := by
  simp [save_annotations_for_sentence, savePartial, List.take_of_length_le]

theorem rowOfRecord_key (annotator_id : String) (a : SaveRecord) :
    (rowOfRecord annotator_id a).annotator_id = annotator_id ∧
      (rowOfRecord annotator_id a).poem_id = a.ID ∧
      (rowOfRecord annotator_id a).sentence_id = a.sentence_id.getD 0 := by
  unfold rowOfRecord
  split <;> exact ⟨rfl, rfl, rfl⟩

theorem keyMatches_rowOfRecord (annotator_id poem_id : String) (sentence_id : Int)
    (a : SaveRecord) (hID : a.ID = poem_id) (hsid : a.sentence_id.getD 0 = sentence_id) :
    keyMatches annotator_id poem_id sentence_id (rowOfRecord annotator_id a) = true := by
  obtain ⟨h1, h2, h3⟩ := rowOfRecord_key annotator_id a
  simp [keyMatches, h1, h2, h3, hID, hsid]

theorem rowsFor_savePartial (db : List DbAnnRow) (annotator_id poem_id : String)
    (sentence_id : Int) (records : List SaveRecord)
    (hkeys : ∀ a ∈ records, a.ID = poem_id ∧ a.sentence_id.getD 0 = sentence_id)
    (k : Nat) (hk : 1 ≤ k) :
    rowsFor (savePartial db annotator_id poem_id sentence_id records k)
        annotator_id poem_id sentence_id =
      ((records.take (k - 1)).map (rowOfRecord annotator_id)) := by
  unfold rowsFor savePartial
  rw [if_neg (by omega)]
  rw [List.filter_append]
  have hold : (db.filter (fun r => !keyMatches annotator_id poem_id sentence_id r)).filter
      (keyMatches annotator_id poem_id sentence_id) = [] := by
    rw [List.filter_filter]
    apply List.filter_eq_nil_iff.mpr
    intro r _
    cases h : keyMatches annotator_id poem_id sentence_id r <;> simp [h]
  have hnew : ((records.take (k - 1)).map (rowOfRecord annotator_id)).filter
      (keyMatches annotator_id poem_id sentence_id) =
      (records.take (k - 1)).map (rowOfRecord annotator_id) := by
    apply List.filter_eq_self.mpr
    intro r hr
    obtain ⟨a, ha, rfl⟩ := List.mem_map.mp hr
    have hmem : a ∈ records := List.mem_of_mem_take ha
    exact keyMatches_rowOfRecord annotator_id poem_id sentence_id a
      (hkeys a hmem).1 (hkeys a hmem).2
  rw [hold, hnew, List.nil_append]

/-! ## The form-level save paths (`_do_save` and `_do_save_no_pronoun`) -/

/-- Drop leading whitespace characters. -/
def dropLeadingWs : List Char → List Char
  | [] => []
  | c :: cs => if c.isWhitespace then dropLeadingWs cs else c :: cs

/-- Python `str.strip()`: remove leading and trailing whitespace.  (Defined
structurally so that it evaluates inside the kernel.) -/
def pyStrip (s : String) : String :=
  ⟨(dropLeadingWs ((dropLeadingWs s.data).reverse)).reverse⟩

/-- One entry of the in-progress pronoun list
(`st.session_state.current_pronouns`); every key is read via `p.get`. -/
structure PronounForm where
  pronoun : Option String
  lemma_ : Option String
  person : Option String
  number : Option String
  is_dropped : Option Bool
deriving DecidableEq, Repr

/-- The records built inside `_do_save` for the sentence currently shown
(`poem_id` is `str(row["ID"])`, `sid` the sentence's id): entries whose
stripped pronoun text is empty are skipped, the rest become pronoun
records for the saved key.  Python `str.strip()` is `pyStrip`. -/
def buildRecords (poem_id : String) (sid : Int) (pronouns : List PronounForm) :
    List SaveRecord :=
  pronouns.filterMap (fun p =>
    if pyStrip (p.pronoun.getD "") ≠ "" then
      some { ID := poem_id
             sentence_id := some sid
             no_pronoun := none
             pronoun := some (pyStrip (p.pronoun.getD ""))
             lemma_ := some (pyStrip (p.lemma_.getD (p.pronoun.getD "")))
             person := some (p.person.getD "")
             number := some (p.number.getD "")
             is_dropped := some (p.is_dropped.getD true)
             position := some sid }
    else none)

/-- `_do_save` in the "Yes" branch: if some entry exists but none has
non-empty stripped pronoun text, warn and save nothing (`none`); otherwise
run `save_annotations_for_sentence` on the built records.  (The navigation
and session-state updates after the save do not touch the table.) -/
def do_save (db : List DbAnnRow) (annotator_id poem_id : String) (sid : Int)
    (pronouns : List PronounForm) : Option (List DbAnnRow) :=
  let has_valid := pronouns.any (fun p => pyStrip (p.pronoun.getD "") ≠ "")
  if ¬has_valid ∧ pronouns ≠ [] then none
  else some (save_annotations_for_sentence db annotator_id poem_id sid
    (buildRecords poem_id sid pronouns))

/-- `_do_save_no_pronoun` in the "No" branch: save the single
no-pronoun marker record for the sentence. -/
def do_save_no_pronoun (db : List DbAnnRow) (annotator_id poem_id : String)
    (sid : Int) : List DbAnnRow :=
  save_annotations_for_sentence db annotator_id poem_id sid
    [{ ID := poem_id
       sentence_id := some sid
       no_pronoun := some true
       pronoun := none, lemma_ := none, person := none, number := none
       is_dropped := none, position := none }]

/-- The spec's per-sentence invariant: the rows stored for one
(annotator, poem, sentence) key are empty, exactly one no-pronoun marker,
or one-or-more pronoun rows — never a mix. -/
def sentenceStateOk (rows : List DbAnnRow) : Prop :=
  rows = [] ∨
    (∃ r, rows = [r] ∧ r.no_pronoun = some true) ∨
    (rows ≠ [] ∧ ∀ r ∈ rows, r.no_pronoun = some false)

theorem buildRecords_keys (poem_id : String) (sid : Int)
    (pronouns : List PronounForm) :
    ∀ a ∈ buildRecords poem_id sid pronouns,
      a.ID = poem_id ∧ a.sentence_id.getD 0 = sid := by
  intro a ha
  obtain ⟨p, _, hp⟩ := List.mem_filterMap.mp ha
  by_cases h : pyStrip (p.pronoun.getD "") ≠ ""
  · rw [if_pos h] at hp
    cases hp
    exact ⟨rfl, rfl⟩
  · rw [if_neg h] at hp
    cases hp

theorem buildRecords_no_pronoun (poem_id : String) (sid : Int)
    (pronouns : List PronounForm) :
    ∀ a ∈ buildRecords poem_id sid pronouns,
      a.no_pronoun = none ∧ a.pronoun.getD "" ≠ "" := by
  intro a ha
  obtain ⟨p, _, hp⟩ := List.mem_filterMap.mp ha
  by_cases h : pyStrip (p.pronoun.getD "") ≠ ""
  · rw [if_pos h] at hp
    cases hp
    exact ⟨rfl, h⟩
  · rw [if_neg h] at hp
    cases hp

/-! ## Poem perspectives (`save_poem_perspective`) -/

/-- A row of the `poem_perspectives` table. -/
structure PerspRow where
  annotator_id : String
  poem_id : String
  perspective_primary : String
  perspective_secondary : String
  author : String
  poem_date : String
deriving DecidableEq, Repr

/-- The `data` dict handed to `save_poem_perspective`; every key is read
with `data.get(key, "")`. -/
structure PerspData where
  perspective_primary : Option String
  perspective_secondary : Option String
  author : Option String
  date : Option String
deriving DecidableEq, Repr

/-- `save_poem_perspective`: upsert by the composite key
(annotator_id, poem_id) — replace the matching row if one exists,
insert otherwise. -/
def save_poem_perspective (db : List PerspRow) (annotator_id poem_id : String)
    (data : PerspData) : List PerspRow :=
  let row : PerspRow :=
    { annotator_id := annotator_id
      poem_id := poem_id
      perspective_primary := data.perspective_primary.getD ""
      perspective_secondary := data.perspective_secondary.getD ""
      author := data.author.getD ""
      poem_date := data.date.getD "" }
  if db.any (fun r => r.annotator_id == annotator_id && r.poem_id == poem_id) then
    db.map (fun r =>
      if r.annotator_id == annotator_id && r.poem_id == poem_id then row else r)
  else db ++ [row]

/-! ## Loading (`load_annotations`, `load_poem_perspectives`) -/

/-- The in-memory record built by `load_annotations` for one stored row:
`ID`, `sentence_id` and `no_pronoun` always present, the pronoun fields
added only when the row is not a no-pronoun marker. -/
structure AnnotationRec where
  ID : String
  sentence_id : Int
  no_pronoun : Bool
  pronoun : Option String
  lemma_ : Option String
  person : Option String
  number : Option String
  is_dropped : Option Bool
  position : Option Int
deriving DecidableEq, Repr

/-- The per-row body of the `load_annotations` loop. -/
def rowToRec (row : DbAnnRow) : AnnotationRec :=
  if row.no_pronoun.getD false then
    { ID := row.poem_id, sentence_id := row.sentence_id, no_pronoun := true
      pronoun := none, lemma_ := none, person := none, number := none
      is_dropped := none, position := none }
  else
    { ID := row.poem_id, sentence_id := row.sentence_id, no_pronoun := false
      pronoun := some (row.pronoun.getD ""), lemma_ := some (row.lemma_.getD "")
      person := some (row.person.getD ""), number := some (row.number.getD "")
      is_dropped := some (row.is_dropped.getD true)
      position := some (row.position.getD 0) }

/-- `load_annotations`: the Supabase select either yields rows or raises;
the function converts the rows, and on any exception shows an error message
(returned here as the second component) and returns the empty list. -/
def load_annotations (resp : Except String (List DbAnnRow)) :
    List AnnotationRec × Option String :=
  match resp with
  | .ok rows => (rows.map rowToRec, none)
  | .error e => ([], some ("Failed to load annotations: " ++ e))

/-- A value of the in-memory poem-perspectives dict. -/
structure PerspVal where
  perspective_primary : String
  perspective_secondary : String
  author : String
  date : String
deriving DecidableEq, Repr

/-- Python dict assignment `out[k] = v`: overwrite the entry if the key is
present, append it otherwise. -/
def dictInsert (d : List (String × PerspVal)) (k : String) (v : PerspVal) :
    List (String × PerspVal) :=
  if d.any (fun p => p.1 == k) then
    d.map (fun p => if p.1 == k then (k, v) else p)
  else d ++ [(k, v)]

/-- `load_poem_perspectives`: convert the rows into a keyed dict, and on any
exception show an error message and return the empty dict. -/
def load_poem_perspectives (resp : Except String (List PerspRow)) :
    List (String × PerspVal) × Option String :=
  match resp with
  | .ok rows =>
    (rows.foldl (fun out row => dictInsert out row.poem_id
      { perspective_primary := row.perspective_primary
        perspective_secondary := row.perspective_secondary
        author := row.author
        date := row.poem_date }) [], none)
  | .error e => ([], some ("Failed to load poem perspectives: " ++ e))

/-! ## `get_reviewed_sentences` and `is_poem_fully_annotated` -/

/-- A row of the sentences table loaded from the CSV (`load_sentences`).
`sentence_id` is `Option Int` because the cell can be missing (`pd.notna`
guards in the source); `Language` and `Theme` are read with `.get`
defaults, so they too may be absent. -/
structure SentenceRow where
  ID : String
  sentence_id : Option Int
  author : String
  date : String
  Language : Option String
  context : String
  Theme : Option String
  sentence : String
deriving DecidableEq, Repr

/-- `get_reviewed_sentences`: the set of (poem ID, sentence id) keys with at
least one stored annotation (a Python set; modelled as a list used only
through membership). -/
def get_reviewed_sentences (annotations : List AnnotationRec) : List (String × Int) :=
  annotations.map (fun a => (a.ID, a.sentence_id))

/-- `is_poem_fully_annotated`: the displayed rows of the poem, `False` when
there are none, otherwise every row's key must be in the reviewed set. -/
def is_poem_fully_annotated (poem_id : String) (display : List SentenceRow)
    (reviewed : List (String × Int)) : Bool :=
  let poem_sents := display.filter (fun r => r.ID == poem_id)
  if poem_sents.isEmpty then false
  else poem_sents.all (fun r => decide ((r.ID, r.sentence_id.getD 0) ∈ reviewed))

/-! ## Python `str()` of the exported cell values -/

/-- Decimal digits of `n`, most significant first; `fuel` bounds the
recursion (any `fuel > n` is enough), keeping the definition structural. -/
def natStrDigits : Nat → Nat → List Char
  | 0, _ => []
  | fuel + 1, n =>
    if n < 10 then [Nat.digitChar n]
    else natStrDigits fuel (n / 10) ++ [Nat.digitChar (n % 10)]

/-- Python `str` of a non-negative integer. -/
def natStr (n : Nat) : String := ⟨natStrDigits (n + 1) n⟩

/-- Python `str` of an `int` (pandas writes int cells this way). -/
def intStr (i : Int) : String :=
  if i < 0 then "-" ++ natStr i.natAbs else natStr i.natAbs

/-- Python `str` of a `bool` (pandas writes bool cells this way). -/
def boolStr (b : Bool) : String := if b then "True" else "False"

/-- Read back a decimal digit string. -/
def parseNatChars (l : List Char) : Nat :=
  l.foldl (fun a c => a * 10 + (c.toNat - 48)) 0

/-- Read back an optionally-signed decimal string. -/
def parseIntChars : List Char → Int
  | '-' :: rest => -(parseNatChars rest : Int)
  | l => (parseNatChars l : Int)

def parseIntStr (s : String) : Int := parseIntChars s.data

theorem digitChar_toNat (d : Nat) (h : d < 10) : (Nat.digitChar d).toNat = 48 + d := by
  interval_cases d <;> rfl

theorem digitChar_ne_minus (d : Nat) (h : d < 10) : Nat.digitChar d ≠ '-' := by
  interval_cases d <;> decide

theorem parseNatChars_append (l : List Char) (c : Char) :
    parseNatChars (l ++ [c]) = parseNatChars l * 10 + (c.toNat - 48) := by
  simp [parseNatChars, List.foldl_append]

theorem parseNatChars_natStrDigits :
    ∀ fuel n, n < fuel → parseNatChars (natStrDigits fuel n) = n := by
  intro fuel
  induction fuel with
  | zero => intro n h; omega
  | succ f ih =>
    intro n h
    by_cases h10 : n < 10
    · simp [natStrDigits, h10, parseNatChars, digitChar_toNat n h10]
    · rw [natStrDigits, if_neg h10, parseNatChars_append,
        ih (n / 10) (by omega), digitChar_toNat (n % 10) (by omega)]
      omega

theorem natStrDigits_ne_nil (fuel n : Nat) (h : 0 < fuel) :
    natStrDigits fuel n ≠ [] := by
  cases fuel with
  | zero => omega
  | succ f =>
    rw [natStrDigits]
    split
    · simp
    · simp

theorem mem_natStrDigits :
    ∀ fuel n, ∀ c ∈ natStrDigits fuel n, ∃ d, d < 10 ∧ c = Nat.digitChar d := by
  intro fuel
  induction fuel with
  | zero => intro n c hc; simp [natStrDigits] at hc
  | succ f ih =>
    intro n c hc
    rw [natStrDigits] at hc
    by_cases h10 : n < 10
    · rw [if_pos h10] at hc
      simp at hc
      exact ⟨n, h10, hc⟩
    · rw [if_neg h10] at hc
      rcases List.mem_append.mp hc with h1 | h2
      · exact ih (n / 10) c h1
      · simp at h2
        exact ⟨n % 10, by omega, h2⟩

theorem parseIntChars_not_minus (l : List Char)
    (h : ∀ c, l.head? = some c → c ≠ '-') :
    parseIntChars l = (parseNatChars l : Int) := by
  match l with
  | [] => rfl
  | c :: rest =>
    have hc : c ≠ '-' := h c rfl
    rw [parseIntChars.eq_def]
    split
    · next heq => cases heq; exact absurd rfl hc
    · rfl

theorem parseIntStr_intStr (i : Int) : parseIntStr (intStr i) = i := by
  by_cases hneg : i < 0
  · rw [intStr, if_pos hneg]
    have hdata : ("-" ++ natStr i.natAbs).data =
        '-' :: natStrDigits (i.natAbs + 1) i.natAbs := rfl
    rw [parseIntStr, hdata, parseIntChars,
      parseNatChars_natStrDigits (i.natAbs + 1) i.natAbs (by omega)]
    omega
  · rw [intStr, if_neg hneg, parseIntStr]
    have hdig : ∀ c, (natStr i.natAbs).data.head? = some c → c ≠ '-' := by
      intro c hc
      have hmem : c ∈ (natStr i.natAbs).data := by
        cases hl : (natStr i.natAbs).data with
        | nil => rw [hl] at hc; simp at hc
        | cons x xs => rw [hl] at hc; simp at hc; simp [hl, hc]
      obtain ⟨d, hd, rfl⟩ := mem_natStrDigits (i.natAbs + 1) i.natAbs c hmem
      exact digitChar_ne_minus d hd
    rw [parseIntChars_not_minus _ hdig]
    have : (natStr i.natAbs).data = natStrDigits (i.natAbs + 1) i.natAbs := rfl
    rw [this, parseNatChars_natStrDigits (i.natAbs + 1) i.natAbs (by omega)]
    omega

/-! ## CSV rendering (pandas `to_csv`, default minimal quoting) and parsing

`DataFrame.to_csv` quotes a field iff it contains the delimiter, the quote
character or a line break, doubling embedded quotes, joins fields with `,`
and terminates every record with a newline.  The parser below is the inverse
reading, written as a structural character state machine so that it
evaluates inside the kernel. -/

def isSpecialChar (c : Char) : Bool :=
  c == ',' || c == '"' || c == '\n' || c == '\r'

/-- Double every quote character (CSV quoting of a field body). -/
def escQuote : List Char → List Char
  | [] => []
  | c :: cs => if c = '"' then '"' :: '"' :: escQuote cs else c :: escQuote cs

/-- Render one field: quoted iff it contains a special character. -/
def renderFieldL (l : List Char) : List Char :=
  if l.any isSpecialChar then '"' :: (escQuote l ++ ['"']) else l

/-- Render one record, comma-separated. -/
def renderRecordL : List String → List Char
  | [] => []
  | [f] => renderFieldL f.data
  | f :: fs => renderFieldL f.data ++ ',' :: renderRecordL fs

/-- Render a document: every record newline-terminated. -/
def renderCsvL : List (List String) → List Char
  | [] => []
  | r :: rs => renderRecordL r ++ '\n' :: renderCsvL rs

def renderCsv (recs : List (List String)) : String := ⟨renderCsvL recs⟩

/-- Parser state: inside an unquoted region, inside a quoted field, or just
after a quote character inside a quoted field (closing or first of a
doubled pair). -/
inductive CsvMode
  | normal
  | quoted
  | quotedQuote

/-- CSV reading state machine: input, mode, current field, current record,
finished records. -/
def csvGo : List Char → CsvMode → List Char → List String → List (List String) →
    List (List String)
  | [], .normal, curF, curR, acc =>
    if curF = [] ∧ curR = [] then acc else acc ++ [curR ++ [⟨curF⟩]]
  | [], .quoted, curF, curR, acc => acc ++ [curR ++ [⟨curF⟩]]
  | [], .quotedQuote, curF, curR, acc => acc ++ [curR ++ [⟨curF⟩]]
  | c :: cs, .normal, curF, curR, acc =>
    if c = ',' then csvGo cs .normal [] (curR ++ [⟨curF⟩]) acc
    else if c = '\n' then csvGo cs .normal [] [] (acc ++ [curR ++ [⟨curF⟩]])
    else if c = '\r' then csvGo cs .normal curF curR acc
    else if c = '"' then csvGo cs .quoted curF curR acc
    else csvGo cs .normal (curF ++ [c]) curR acc
  | c :: cs, .quoted, curF, curR, acc =>
    if c = '"' then csvGo cs .quotedQuote curF curR acc
    else csvGo cs .quoted (curF ++ [c]) curR acc
  | c :: cs, .quotedQuote, curF, curR, acc =>
    if c = ',' then csvGo cs .normal [] (curR ++ [⟨curF⟩]) acc
    else if c = '\n' then csvGo cs .normal [] [] (acc ++ [curR ++ [⟨curF⟩]])
    else if c = '\r' then csvGo cs .quotedQuote curF curR acc
    else if c = '"' then csvGo cs .quoted (curF ++ ['"']) curR acc
    else csvGo cs .normal (curF ++ [c]) curR acc

def parseCsv (s : String) : List (List String) := csvGo s.data .normal [] [] []

theorem csvGo_plain (l : List Char) (h : ∀ c ∈ l, isSpecialChar c = false)
    (cs curF : List Char) (curR : List String) (acc : List (List String)) :
    csvGo (l ++ cs) .normal curF curR acc = csvGo cs .normal (curF ++ l) curR acc := by
  induction l generalizing curF with
  | nil => simp
  | cons c l ih =>
    have hc := h c (by simp)
    simp only [isSpecialChar, Bool.or_eq_false_iff, beq_eq_false_iff_ne, ne_eq] at hc
    obtain ⟨⟨⟨h1, h2⟩, h3⟩, h4⟩ := hc
    rw [List.cons_append, csvGo, if_neg h1, if_neg h3, if_neg h4, if_neg h2,
      ih (fun x hx => h x (by simp [hx])) (curF ++ [c])]
    simp

theorem csvGo_escQuote (l : List Char) (cs curF : List Char) (curR : List String)
    (acc : List (List String)) :
    csvGo (escQuote l ++ cs) .quoted curF curR acc =
      csvGo cs .quoted (curF ++ l) curR acc := by
  induction l generalizing curF with
  | nil => simp [escQuote]
  | cons c l ih =>
    by_cases hc : c = '"'
    · subst hc
      rw [escQuote, if_pos rfl, List.cons_append, csvGo, if_pos rfl,
        List.cons_append, csvGo,
        if_neg (by decide), if_neg (by decide), if_neg (by decide), if_pos rfl,
        ih (curF ++ ['"'])]
      simp
    · rw [escQuote, if_neg hc, List.cons_append, csvGo, if_neg hc,
        ih (curF ++ [c])]
      simp

theorem csvGo_field_comma (f : String) (cs : List Char) (curR : List String)
    (acc : List (List String)) :
    csvGo (renderFieldL f.data ++ ',' :: cs) .normal [] curR acc =
      csvGo cs .normal [] (curR ++ [f]) acc := by
  by_cases hq : f.data.any isSpecialChar
  · rw [renderFieldL, if_pos hq, List.cons_append, csvGo,
      if_neg (by decide), if_neg (by decide), if_neg (by decide), if_pos rfl,
      List.append_assoc, List.singleton_append,
      csvGo_escQuote f.data ('"' :: ',' :: cs) [] curR acc,
      List.nil_append, csvGo, if_pos rfl, csvGo, if_pos rfl]
  · rw [renderFieldL, if_neg hq]
    have h : ∀ c ∈ f.data, isSpecialChar c = false := by
      intro c hc
      by_contra hcontra
      exact hq (List.any_eq_true.mpr ⟨c, hc, by revert hcontra; cases isSpecialChar c <;> simp⟩)
    rw [csvGo_plain f.data h (',' :: cs) [] curR acc, List.nil_append, csvGo, if_pos rfl]

theorem csvGo_field_newline (f : String) (cs : List Char) (curR : List String)
    (acc : List (List String)) :
    csvGo (renderFieldL f.data ++ '\n' :: cs) .normal [] curR acc =
      csvGo cs .normal [] [] (acc ++ [curR ++ [f]]) := by
  by_cases hq : f.data.any isSpecialChar
  · rw [renderFieldL, if_pos hq, List.cons_append, csvGo,
      if_neg (by decide), if_neg (by decide), if_neg (by decide), if_pos rfl,
      List.append_assoc, List.singleton_append,
      csvGo_escQuote f.data ('"' :: '\n' :: cs) [] curR acc,
      List.nil_append, csvGo, if_pos rfl, csvGo, if_neg (by decide), if_pos rfl]
  · rw [renderFieldL, if_neg hq]
    have h : ∀ c ∈ f.data, isSpecialChar c = false := by
      intro c hc
      by_contra hcontra
      exact hq (List.any_eq_true.mpr ⟨c, hc, by revert hcontra; cases isSpecialChar c <;> simp⟩)
    rw [csvGo_plain f.data h ('\n' :: cs) [] curR acc, List.nil_append, csvGo,
      if_neg (by decide), if_pos rfl]

theorem csvGo_record (fs : List String) (h : fs ≠ []) (cs : List Char)
    (curR : List String) (acc : List (List String)) :
    csvGo (renderRecordL fs ++ '\n' :: cs) .normal [] curR acc =
      csvGo cs .normal [] [] (acc ++ [curR ++ fs]) := by
  induction fs generalizing curR with
  | nil => exact absurd rfl h
  | cons f fs ih =>
    cases fs with
    | nil => rw [renderRecordL, csvGo_field_newline]
    | cons f2 fs2 =>
      have hne : f2 :: fs2 ≠ [] := List.cons_ne_nil f2 fs2
      rw [renderRecordL, List.append_assoc, List.cons_append,
        csvGo_field_comma f _ curR acc]
      rw [ih hne (curR ++ [f])]
      · simp
      · exact hne

theorem csvGo_doc (recs : List (List String)) (h : ∀ r ∈ recs, r ≠ [])
    (acc : List (List String)) :
    csvGo (renderCsvL recs) .normal [] [] acc = acc ++ recs := by
  induction recs generalizing acc with
  | nil => simp [renderCsvL, csvGo]
  | cons r rs ih =>
    rw [renderCsvL, csvGo_record r (h r (by simp)) (renderCsvL rs) [] acc,
      List.nil_append, ih (fun x hx => h x (by simp [hx])) (acc ++ [r])]
    simp

/-- Reading back a rendered CSV document recovers it exactly (every record
in the app's documents has at least one field). -/
theorem parseCsv_renderCsv (recs : List (List String)) (h : ∀ r ∈ recs, r ≠ []) :
    parseCsv (renderCsv recs) = recs := by
  have hdata : (renderCsv recs).data = renderCsvL recs := rfl
  rw [parseCsv, hdata, csvGo_doc recs h []]
  simp

/-! ## CSV export (`pronoun_row_to_output`, `build_export_csv`) -/

/-- Column order for export (`OUTPUT_COLUMNS` in the source). -/
def OUTPUT_COLUMNS : List String :=
  ["ID", "author", "date", "Language", "text", "Theme",
   "pronoun", "lemma", "uk_match_pos", "position", "context",
   "person", "number", "gender", "case", "is_dropped", "en_reference",
   "shakespeare_text", "gpt_annotations"]

/-- One output row of the pronoun export.  The field declaration order is
the insertion order of the dict built by `pronoun_row_to_output`, which
coincides with `OUTPUT_COLUMNS` (the source additionally reindexes by
`df[OUTPUT_COLUMNS]`, which is then the identity on columns). -/
structure OutRow where
  ID : String
  author : String
  date : String
  Language : String
  text : String
  Theme : String
  pronoun : String
  lemma_ : String
  uk_match_pos : String
  position : Int
  context : String
  person : String
  number : String
  gender : String
  case_ : String
  is_dropped : Bool
  en_reference : String
  shakespeare_text : String
  gpt_annotations : String
deriving DecidableEq, Repr

/-- `pronoun_row_to_output` applied to a loaded annotation record: the keys
`uk_match_pos`, `gender`, `case`, `en_reference` are never present on loaded
records, so their `row.get(…, "")` reads are the defaults; `row["pronoun"]`
is present (`some`) on every loaded pronoun record. -/
def pronoun_row_to_output (row : AnnotationRec) (sentence_row : SentenceRow) : OutRow :=
  { ID := sentence_row.ID
    author := sentence_row.author
    date := sentence_row.date
    Language := sentence_row.Language.getD "Ukrainian"
    text := sentence_row.context
    Theme := sentence_row.Theme.getD ""
    pronoun := row.pronoun.getD ""
    lemma_ := row.lemma_.getD (row.pronoun.getD "")
    uk_match_pos := ""
    position := row.position.getD row.sentence_id
    context := sentence_row.sentence
    person := row.person.getD ""
    number := row.number.getD ""
    gender := ""
    case_ := ""
    is_dropped := row.is_dropped.getD true
    en_reference := ""
    shakespeare_text := ""
    gpt_annotations := "" }

/-- The stringified cells of an output row, in `OUTPUT_COLUMNS` order
(pandas writes str cells verbatim, int cells in decimal, bool cells as
`True` / `False`). -/
def outRowFields (r : OutRow) : List String :=
  [r.ID, r.author, r.date, r.Language, r.text, r.Theme,
   r.pronoun, r.lemma_, r.uk_match_pos, intStr r.position, r.context,
   r.person, r.number, r.gender, r.case_, boolStr r.is_dropped,
   r.en_reference, r.shakespeare_text, r.gpt_annotations]

/-- The sentence-table lookup in `build_export_csv`: the first row matching
both the poem ID and the sentence id, if any. -/
def findSentence (sdf : List SentenceRow) (pid : String) (sid : Int) :
    Option SentenceRow :=
  (sdf.filter (fun s => s.ID == pid && s.sentence_id == some sid)).head?

/-- The data rows of the export: the pronoun annotations, each joined with
its sentence row, those without a matching sentence row skipped. -/
def exportRows (annotations : List AnnotationRec) (sdf : List SentenceRow) :
    List (List String) :=
  (annotations.filter (fun a => !a.no_pronoun)).filterMap
    (fun a => (findSentence sdf a.ID a.sentence_id).map
      (fun s => outRowFields (pronoun_row_to_output a s)))

/-- `build_export_csv`: empty string when there is no pronoun annotation;
otherwise the CSV with the fixed header (when every pronoun annotation is
skipped for lack of a matching sentence row, this is the header only). -/
def build_export_csv (annotations : List AnnotationRec) (sdf : List SentenceRow) :
    String :=
  if (annotations.filter (fun a => !a.no_pronoun)).isEmpty then ""
  else renderCsv (OUTPUT_COLUMNS :: exportRows annotations sdf)

/-- Modelled from the spec: the repository contains no importer, but the
spec's round-trip property speaks of "re-importing an annotator's CSV"
(§8 (1)).  Re-importing reads the CSV text back and keys each data row's
cells by the header columns. -/
def import_csv (s : String) : List (List (String × String)) :=
  match parseCsv s with
  | [] => []
  | header :: rows => rows.map (fun r => header.zip r)

/-- An exported row as the keyed record the importer produces for it. -/
def outRowAssoc (r : OutRow) : List (String × String) :=
  OUTPUT_COLUMNS.zip (outRowFields r)

/-- Modelled from the spec: rebuild the in-memory pronoun row from an
imported record (§8 (1) "yields the same pronoun rows").  The sentence id is
read from the `position` column, which the save path sets to the sentence
id; `is_dropped` is read back from pandas' `True` / `False` rendering. -/
def annotationOfImported (kv : List (String × String)) : AnnotationRec :=
  { ID := (kv.lookup "ID").getD ""
    sentence_id := parseIntStr ((kv.lookup "position").getD "")
    no_pronoun := false
    pronoun := some ((kv.lookup "pronoun").getD "")
    lemma_ := some ((kv.lookup "lemma").getD "")
    person := some ((kv.lookup "person").getD "")
    number := some ((kv.lookup "number").getD "")
    is_dropped := some ((kv.lookup "is_dropped").getD "" == "True")
    position := some (parseIntStr ((kv.lookup "position").getD "")) }

theorem outRowFields_ne_nil (r : OutRow) : outRowFields r ≠ [] := by
  simp [outRowFields]

theorem exportRows_mem_ne_nil (annotations : List AnnotationRec)
    (sdf : List SentenceRow) :
    ∀ row ∈ exportRows annotations sdf, row ≠ [] := by
  intro row hrow
  obtain ⟨a, _, ha⟩ := List.mem_filterMap.mp hrow
  obtain ⟨s, _, rfl⟩ := Option.map_eq_some'.mp ha
  exact outRowFields_ne_nil _

theorem build_export_csv_eq (annotations : List AnnotationRec)
    (sdf : List SentenceRow) (h : annotations.filter (fun a => !a.no_pronoun) ≠ []) :
    build_export_csv annotations sdf =
      renderCsv (OUTPUT_COLUMNS :: exportRows annotations sdf) := by
  rw [build_export_csv, if_neg]
  simp [List.isEmpty_iff, h]

theorem parseCsv_build_export_csv (annotations : List AnnotationRec)
    (sdf : List SentenceRow) (h : annotations.filter (fun a => !a.no_pronoun) ≠ []) :
    parseCsv (build_export_csv annotations sdf) =
      OUTPUT_COLUMNS :: exportRows annotations sdf := by
  rw [build_export_csv_eq annotations sdf h]
  apply parseCsv_renderCsv
  intro r hr
  rcases List.mem_cons.mp hr with rfl | hmem
  · decide
  · exact exportRows_mem_ne_nil annotations sdf r hmem

theorem findSentence_eq_some (sdf : List SentenceRow) (pid : String) (sid : Int)
    (s : SentenceRow) (h : findSentence sdf pid sid = some s) :
    s.ID = pid ∧ s.sentence_id = some sid := by
  unfold findSentence at h
  have hmem : s ∈ sdf.filter (fun t => t.ID == pid && t.sentence_id == some sid) := by
    cases hl : sdf.filter (fun t => t.ID == pid && t.sentence_id == some sid) with
    | nil => rw [hl] at h; simp at h
    | cons x xs =>
      rw [hl] at h
      simp only [List.head?_cons, Option.some.injEq] at h
      rw [← h]
      exact List.mem_cons_self x xs
  have hcond := (List.mem_filter.mp hmem).2
  simp only [Bool.and_eq_true, beq_iff_eq] at hcond
  exact hcond

/-! ## Concrete sample data used by witnesses and counterexamples -/

/-- A stored pronoun row under the key ("ann", "p1", 1). -/
def exRow : DbAnnRow :=
  { annotator_id := "ann", poem_id := "p1", sentence_id := 1
    no_pronoun := some false, pronoun := some "він", lemma_ := some "він"
    person := some "3rd", number := some "Singular"
    is_dropped := some true, position := some 1 }

/-- A stored pronoun row under the unrelated key ("ann", "p2", 2). -/
def exRowOther : DbAnnRow :=
  { annotator_id := "ann", poem_id := "p2", sentence_id := 2
    no_pronoun := some false, pronoun := some "ти", lemma_ := some "ти"
    person := some "2nd", number := some "Singular"
    is_dropped := some false, position := some 2 }

/-- A save record for the key ("p1", 1). -/
def exRecord : SaveRecord :=
  { ID := "p1", sentence_id := some 1, no_pronoun := none
    pronoun := some "я", lemma_ := none, person := some "1st"
    number := some "Singular", is_dropped := some true, position := some 1 }

/-- A form entry whose pronoun text is non-empty after stripping. -/
def exForm : PronounForm :=
  { pronoun := some " я ", lemma_ := none, person := some "1st"
    number := some "Singular", is_dropped := some true }

/-- A loaded pronoun annotation record for sentence ("p1", 1). -/
def exAnnRec : AnnotationRec :=
  { ID := "p1", sentence_id := 1, no_pronoun := false
    pronoun := some "я", lemma_ := some "я", person := some "1st"
    number := some "Singular", is_dropped := some true, position := some 1 }

/-- A loaded no-pronoun marker record for sentence ("p1", 2). -/
def exMarkerRec : AnnotationRec :=
  { ID := "p1", sentence_id := 2, no_pronoun := true
    pronoun := none, lemma_ := none, person := none
    number := none, is_dropped := none, position := none }

/-- A loaded pronoun annotation record with no matching sentence row. -/
def exAnnRecNoMatch : AnnotationRec :=
  { ID := "p9", sentence_id := 7, no_pronoun := false
    pronoun := some "ми", lemma_ := some "ми", person := some "1st"
    number := some "Plural", is_dropped := some false, position := some 7 }

/-- A sentences-table row for ("p1", 1); the context holds a comma so the
CSV rendering exercises the quoting path. -/
def exSentRow : SentenceRow :=
  { ID := "p1", sentence_id := some 1, author := "Shevchenko", date := "1840"
    Language := some "Ukrainian", context := "Садок вишневий, коло хати"
    Theme := some "home", sentence := "я іду" }

/-- A stored pronoun row whose position equals its sentence id, as the save
path writes it. -/
def exDbRow : DbAnnRow :=
  { annotator_id := "ann", poem_id := "p1", sentence_id := 1
    no_pronoun := some false, pronoun := some "я", lemma_ := some "я"
    person := some "1st", number := some "Singular"
    is_dropped := some true, position := some 1 }

/-! ## Claim theorems -/

/-- C1: a completed `save_annotations_for_sentence` replaces the stored
annotations for the (annotator, poem, sentence) key wholesale: afterwards the
rows stored under the key are exactly the rows built from the given records —
the previously stored rows for the key are gone and nothing of the result
depends on them (no individual-row update path).  The hypothesis states that
the records carry the saved key, as both call sites construct them. -/
theorem c1_save_replaces_wholesale (db : List DbAnnRow)
    (annotator_id poem_id : String) (sentence_id : Int) (records : List SaveRecord)
    (hkeys : ∀ a ∈ records, a.ID = poem_id ∧ a.sentence_id.getD 0 = sentence_id) :
    rowsFor (save_annotations_for_sentence db annotator_id poem_id sentence_id records)
        annotator_id poem_id sentence_id =
      records.map (rowOfRecord annotator_id) := by
  rw [save_eq_savePartial_last,
    rowsFor_savePartial db annotator_id poem_id sentence_id records hkeys
      (records.length + 1) (by omega)]
  simp [List.take_of_length_le]

theorem c1_witness :
    rowsFor (save_annotations_for_sentence [exRow, exRowOther] "ann" "p1" 1 [exRecord])
        "ann" "p1" 1 = [exRecord].map (rowOfRecord "ann") :=
  c1_save_replaces_wholesale [exRow, exRowOther] "ann" "p1" 1 [exRecord] (by decide)

/-- C2: after any completed save through either form path — `_do_save`
("Yes") or `_do_save_no_pronoun` ("No") — the rows stored for the saved
(annotator, poem, sentence) key are empty, exactly one no-pronoun marker,
or one-or-more pronoun rows; never a marker mixed with pronoun rows. -/
theorem c2_save_state_invariant (db : List DbAnnRow) (annotator_id poem_id : String)
    (sid : Int) (pronouns : List PronounForm) :
    (∀ db2, do_save db annotator_id poem_id sid pronouns = some db2 →
        sentenceStateOk (rowsFor db2 annotator_id poem_id sid)) ∧
      sentenceStateOk (rowsFor (do_save_no_pronoun db annotator_id poem_id sid)
        annotator_id poem_id sid) := by
  constructor
  · intro db2 hdb2
    simp only [do_save] at hdb2
    split at hdb2
    · exact absurd hdb2 (by simp)
    · have hsave : save_annotations_for_sentence db annotator_id poem_id sid
          (buildRecords poem_id sid pronouns) = db2 := by
        simpa using hdb2
      subst hsave
      rw [c1_save_replaces_wholesale db annotator_id poem_id sid
        (buildRecords poem_id sid pronouns) (buildRecords_keys poem_id sid pronouns)]
      by_cases hb : buildRecords poem_id sid pronouns = []
      · left
        simp [hb]
      · right; right
        refine ⟨by simp [hb], ?_⟩
        intro r hr
        obtain ⟨a, ha, rfl⟩ := List.mem_map.mp hr
        have hnp := (buildRecords_no_pronoun poem_id sid pronouns a ha).1
        simp [rowOfRecord, hnp]
  · unfold do_save_no_pronoun
    rw [c1_save_replaces_wholesale db annotator_id poem_id sid _
      (by intro a ha; simp at ha; subst ha; exact ⟨rfl, rfl⟩)]
    right; left
    rw [List.map_cons, List.map_nil]
    refine ⟨_, rfl, ?_⟩
    simp [rowOfRecord]

theorem c2_witness :
    sentenceStateOk (rowsFor
      (save_annotations_for_sentence [exRow] "ann" "p1" 1 (buildRecords "p1" 1 [exForm]))
      "ann" "p1" 1) :=
  (c2_save_state_invariant [exRow] "ann" "p1" 1 [exForm]).1 _ (by decide)

/-- C3 counterexample: the save is not atomic.  `save_annotations_for_sentence`
issues the delete and each insert as separate network calls; the observable
state after the delete alone (`savePartial … 1`) has the old rows for the key
removed and none of the new rows inserted, and differs from the pre-save
state — so a failure between the delete and the inserts does not leave the
stored state for the key unchanged, contradicting the claim. -/
theorem c3_counterexample :
    savePartial [exRow] "ann" "p1" 1 [exRecord] 1 ≠ [exRow] ∧
      rowsFor (savePartial [exRow] "ann" "p1" 1 [exRecord] 1) "ann" "p1" 1 = [] ∧
      rowsFor [exRow] "ann" "p1" 1 = [exRow] := by
  refine ⟨by decide, by decide, by decide⟩

/-- C3 (amended): the delete-then-insert sequence is not atomic.  Every
per-call intermediate state is observable: after the delete and the first
`j` inserts the rows stored for the key are exactly the first `j` new rows
(the old rows already deleted), and only the final step of the sequence
coincides with the completed wholesale replacement. -/
theorem c3_partial_save_states (db : List DbAnnRow) (annotator_id poem_id : String)
    (sid : Int) (records : List SaveRecord)
    (hkeys : ∀ a ∈ records, a.ID = poem_id ∧ a.sentence_id.getD 0 = sid)
    (j : Nat) (_hj : j ≤ records.length) :
    rowsFor (savePartial db annotator_id poem_id sid records (j + 1))
        annotator_id poem_id sid = (records.take j).map (rowOfRecord annotator_id) ∧
      savePartial db annotator_id poem_id sid records (records.length + 1) =
        save_annotations_for_sentence db annotator_id poem_id sid records := by
  constructor
  · have h := rowsFor_savePartial db annotator_id poem_id sid records hkeys (j + 1)
      (by omega)
    simpa using h
  · exact (save_eq_savePartial_last db annotator_id poem_id sid records).symm

theorem c3_witness :
    rowsFor (savePartial [exRow] "ann" "p1" 1 [exRecord] 1) "ann" "p1" 1 =
        ([exRecord].take 0).map (rowOfRecord "ann") ∧
      savePartial [exRow] "ann" "p1" 1 [exRecord] 2 =
        save_annotations_for_sentence [exRow] "ann" "p1" 1 [exRecord] :=
  c3_partial_save_states [exRow] "ann" "p1" 1 [exRecord] (by decide) 0 (by decide)

theorem filter_map_upsert (rs : List PerspRow) (annotator_id poem_id : String)
    (row : PerspRow) (hrow : row.annotator_id = annotator_id ∧ row.poem_id = poem_id) :
    (rs.map (fun r =>
        if r.annotator_id == annotator_id && r.poem_id == poem_id then row else r)).filter
        (fun r => !(r.annotator_id == annotator_id && r.poem_id == poem_id)) =
      rs.filter (fun r => !(r.annotator_id == annotator_id && r.poem_id == poem_id)) := by
  have hrowb : (row.annotator_id == annotator_id && row.poem_id == poem_id) = true := by
    simp [hrow.1, hrow.2]
  induction rs with
  | nil => rfl
  | cons r rs ih =>
    rw [List.map_cons, List.filter_cons, List.filter_cons]
    cases h : (r.annotator_id == annotator_id && r.poem_id == poem_id) with
    | true => simpa [h, hrowb] using ih
    | false => simpa [h] using ih

theorem upsert_keeps_other_rows (pdb : List PerspRow) (annotator_id poem_id : String)
    (data : PerspData) :
    (save_poem_perspective pdb annotator_id poem_id data).filter
        (fun r => !(r.annotator_id == annotator_id && r.poem_id == poem_id)) =
      pdb.filter (fun r => !(r.annotator_id == annotator_id && r.poem_id == poem_id)) := by
  simp only [save_poem_perspective]
  split
  · exact filter_map_upsert pdb annotator_id poem_id _ ⟨rfl, rfl⟩
  · rw [List.filter_append]
    simp

/-- C7: saving is keyed.  `save_annotations_for_sentence` leaves every
annotation row whose (annotator, poem, sentence) key differs from the saved
key unchanged, and `save_poem_perspective` leaves every perspective row whose
(annotator, poem) key differs from the saved key unchanged. -/
theorem c7_saves_are_keyed (db : List DbAnnRow) (pdb : List PerspRow)
    (annotator_id poem_id : String) (sid : Int) (records : List SaveRecord)
    (data : PerspData)
    (hkeys : ∀ a ∈ records, a.ID = poem_id ∧ a.sentence_id.getD 0 = sid) :
    (save_annotations_for_sentence db annotator_id poem_id sid records).filter
        (fun r => !keyMatches annotator_id poem_id sid r) =
      db.filter (fun r => !keyMatches annotator_id poem_id sid r) ∧
    (save_poem_perspective pdb annotator_id poem_id data).filter
        (fun r => !(r.annotator_id == annotator_id && r.poem_id == poem_id)) =
      pdb.filter (fun r => !(r.annotator_id == annotator_id && r.poem_id == poem_id)) := by
  refine ⟨?_, upsert_keeps_other_rows pdb annotator_id poem_id data⟩
  unfold save_annotations_for_sentence
  rw [List.filter_append]
  have h1 : (db.filter (fun r => !keyMatches annotator_id poem_id sid r)).filter
      (fun r => !keyMatches annotator_id poem_id sid r) =
      db.filter (fun r => !keyMatches annotator_id poem_id sid r) := by
    rw [List.filter_filter]
    simp
  have h2 : (records.map (rowOfRecord annotator_id)).filter
      (fun r => !keyMatches annotator_id poem_id sid r) = [] := by
    apply List.filter_eq_nil_iff.mpr
    intro r hr
    obtain ⟨a, ha, rfl⟩ := List.mem_map.mp hr
    simp [keyMatches_rowOfRecord annotator_id poem_id sid a (hkeys a ha).1 (hkeys a ha).2]
  rw [h1, h2, List.append_nil]

theorem c7_witness :
    (save_annotations_for_sentence [exRow, exRowOther] "ann" "p1" 1 [exRecord]).filter
        (fun r => !keyMatches "ann" "p1" 1 r) =
      [exRow, exRowOther].filter (fun r => !keyMatches "ann" "p1" 1 r) ∧
    (save_poem_perspective [] "ann" "p1"
        ⟨some "1st person", some "", some "Shevchenko", some "1840"⟩).filter
        (fun r => !(r.annotator_id == "ann" && r.poem_id == "p1")) =
      ([] : List PerspRow).filter (fun r => !(r.annotator_id == "ann" && r.poem_id == "p1")) :=
  c7_saves_are_keyed [exRow, exRowOther] [] "ann" "p1" 1 [exRecord]
    ⟨some "1st person", some "", some "Shevchenko", some "1840"⟩ (by decide)

/-- C8 counterexample: with an *empty* entry list, no entry has non-empty
pronoun text, yet `_do_save` does not reject — it completes the save with
zero records, deleting the previously stored row for the key, so the state
is modified.  This contradicts the claim's "if no entry has non-empty
pronoun text the save is rejected … and no state is modified". -/
theorem c8_counterexample :
    (∀ p ∈ ([] : List PronounForm), pyStrip (p.pronoun.getD "") = "") ∧
      do_save [exRow] "ann" "p1" 1 [] = some [] ∧ [exRow] ≠ ([] : List DbAnnRow) := by
  refine ⟨by simp, by decide, by decide⟩

/-- C8 (amended): every record persisted by the "Yes" path has non-empty
pronoun surface text after stripping (empty-text entries are skipped: the
built records of a pronoun list equal those of the list with empty-text
entries removed), and if the entry list is *non-empty* and no entry has
non-empty pronoun text the save is rejected with a warning and no state is
modified; an empty entry list, however, completes and clears the sentence. -/
theorem c8_pronoun_validation (db : List DbAnnRow) (annotator_id poem_id : String)
    (sid : Int) (pronouns : List PronounForm) :
    (∀ r ∈ buildRecords poem_id sid pronouns,
        r.no_pronoun = none ∧ r.pronoun.getD "" ≠ "") ∧
      buildRecords poem_id sid pronouns =
        buildRecords poem_id sid
          (pronouns.filter (fun p => !(pyStrip (p.pronoun.getD "") == ""))) ∧
      (pronouns ≠ [] → (∀ p ∈ pronouns, pyStrip (p.pronoun.getD "") = "") →
        do_save db annotator_id poem_id sid pronouns = none) := by
  refine ⟨buildRecords_no_pronoun poem_id sid pronouns, ?_, ?_⟩
  · induction pronouns with
    | nil => rfl
    | cons p ps ih =>
      by_cases h : pyStrip (p.pronoun.getD "") = ""
      · simp [buildRecords, List.filterMap_cons, List.filter_cons, h] at *
        exact ih
      · simp [buildRecords, List.filterMap_cons, List.filter_cons, h] at *
        exact ih
  · intro hne hempty
    have hval : ¬((pronouns.any fun p => decide (pyStrip (p.pronoun.getD "") ≠ "")) = true) := by
      intro hcontra
      obtain ⟨p, hp, hps⟩ := List.any_eq_true.mp hcontra
      rw [decide_eq_true_eq] at hps
      exact hps (hempty p hp)
    simp only [do_save]
    rw [if_pos ⟨hval, hne⟩]

/-- C5 counterexample: for a poem with no sentences in the displayed table,
every sentence of the poem is (vacuously) reviewed, yet
`is_poem_fully_annotated` returns `False` — the claimed biconditional fails
in the vacuous case, which the source handles with an explicit
`if poem_sents.empty: return False`. -/
theorem c5_counterexample :
    is_poem_fully_annotated "p1" [] [] = false ∧
      (∀ r ∈ ([] : List SentenceRow), r.ID = "p1" →
        ("p1", r.sentence_id.getD 0) ∈ ([] : List (String × Int))) := by
  exact ⟨rfl, by simp⟩

/-- C5 (amended): `is_poem_fully_annotated` returns `True` iff the poem has
at least one sentence row in the displayed table *and* every sentence row of
the poem appears, paired with the poem ID, in the reviewed set; a poem with
no displayed sentences is reported as not fully annotated. -/
theorem c5_fully_annotated_iff (poem_id : String) (display : List SentenceRow)
    (reviewed : List (String × Int)) :
    is_poem_fully_annotated poem_id display reviewed = true ↔
      ((∃ r ∈ display, r.ID = poem_id) ∧
        ∀ r ∈ display, r.ID = poem_id → (poem_id, r.sentence_id.getD 0) ∈ reviewed) := by
  by_cases hemp : display.filter (fun r => r.ID == poem_id) = []
  · have h1 : is_poem_fully_annotated poem_id display reviewed = false := by
      simp [is_poem_fully_annotated, hemp]
    rw [h1]
    simp only [Bool.false_eq_true, false_iff]
    rintro ⟨⟨r, hr, hrid⟩, -⟩
    have hmem : r ∈ display.filter (fun r => r.ID == poem_id) :=
      List.mem_filter.mpr ⟨hr, by simp [hrid]⟩
    simp [hemp] at hmem
  · have h1 : is_poem_fully_annotated poem_id display reviewed =
        (display.filter (fun r => r.ID == poem_id)).all
          (fun r => decide ((r.ID, r.sentence_id.getD 0) ∈ reviewed)) := by
      simp [is_poem_fully_annotated, List.isEmpty_iff, hemp]
    rw [h1]
    constructor
    · intro hall
      constructor
      · obtain ⟨r, hr⟩ := List.exists_mem_of_ne_nil _ hemp
        have hm := List.mem_filter.mp hr
        exact ⟨r, hm.1, by simpa using hm.2⟩
      · intro r hr hrid
        have hmem : r ∈ display.filter (fun r => r.ID == poem_id) :=
          List.mem_filter.mpr ⟨hr, by simp [hrid]⟩
        have hc := List.all_eq_true.mp hall r hmem
        rw [decide_eq_true_eq] at hc
        rwa [hrid] at hc
    · rintro ⟨-, hall⟩
      apply List.all_eq_true.mpr
      intro r hr
      have hm := List.mem_filter.mp hr
      have hrid : r.ID = poem_id := by simpa using hm.2
      have := hall r hm.1 hrid
      rw [decide_eq_true_eq, hrid]
      exact this

/-- C9: the load operations never propagate an exception: both are total
functions of the backend response, and on a failing response
`load_annotations` returns the empty list alongside the displayed error
message, and `load_poem_perspectives` returns the empty dict alongside the
displayed error message. -/
theorem c9_loads_catch_errors (e : String) :
    load_annotations (Except.error e) =
        ([], some ("Failed to load annotations: " ++ e)) ∧
      load_poem_perspectives (Except.error e) =
        ([], some ("Failed to load poem perspectives: " ++ e)) :=
  ⟨rfl, rfl⟩

/-- C4: when at least one pronoun annotation exists (so the export is not
the empty string), reading the produced CSV back gives the fixed
`OUTPUT_COLUMNS` header first, in order, and every data row is derived from
a pronoun annotation (`no_pronoun` false) joined with its sentence row — no
row is derived from a NoPronounMarker. -/
theorem c4_export_columns_no_markers (annotations : List AnnotationRec)
    (sdf : List SentenceRow) (h : annotations.filter (fun a => !a.no_pronoun) ≠ []) :
    parseCsv (build_export_csv annotations sdf) =
        OUTPUT_COLUMNS :: exportRows annotations sdf ∧
      ∀ row ∈ exportRows annotations sdf, ∃ a s, a ∈ annotations ∧
        a.no_pronoun = false ∧ findSentence sdf a.ID a.sentence_id = some s ∧
        row = outRowFields (pronoun_row_to_output a s) := by
  refine ⟨parseCsv_build_export_csv annotations sdf h, ?_⟩
  intro row hrow
  obtain ⟨a, ha, hmap⟩ := List.mem_filterMap.mp hrow
  obtain ⟨s, hs, hrow2⟩ := Option.map_eq_some'.mp hmap
  have hmem := List.mem_filter.mp ha
  refine ⟨a, s, hmem.1, ?_, hs, hrow2.symm⟩
  have := hmem.2
  simpa using this

theorem c4_witness :
    parseCsv (build_export_csv [exMarkerRec, exAnnRec] [exSentRow]) =
        OUTPUT_COLUMNS :: exportRows [exMarkerRec, exAnnRec] [exSentRow] ∧
      ∀ row ∈ exportRows [exMarkerRec, exAnnRec] [exSentRow], ∃ a s,
        a ∈ [exMarkerRec, exAnnRec] ∧ a.no_pronoun = false ∧
        findSentence [exSentRow] a.ID a.sentence_id = some s ∧
        row = outRowFields (pronoun_row_to_output a s) :=
  c4_export_columns_no_markers [exMarkerRec, exAnnRec] [exSentRow] (by decide)

theorem annotationOfImported_outRowAssoc (r : OutRow) :
    annotationOfImported (outRowAssoc r) =
      { ID := r.ID
        sentence_id := parseIntStr (intStr r.position)
        no_pronoun := false
        pronoun := some r.pronoun
        lemma_ := some r.lemma_
        person := some r.person
        number := some r.number
        is_dropped := some (boolStr r.is_dropped == "True")
        position := some (parseIntStr (intStr r.position)) } := rfl

theorem boolStr_beq_true (b : Bool) : (boolStr b == "True") = b := by
  cases b <;> rfl

/-- C6: round trip.  Re-importing the CSV produced by `build_export_csv`
yields exactly the exported pronoun records keyed by the header columns
(column order preserved by the fixed header), and each imported record
rebuilds the very in-memory pronoun row it came from, for rows as the save
path writes them (position = sentence id). -/
theorem c6_export_import_round_trip (annotations : List AnnotationRec)
    (sdf : List SentenceRow) (h : annotations.filter (fun a => !a.no_pronoun) ≠ []) :
    import_csv (build_export_csv annotations sdf) =
        (annotations.filter (fun a => !a.no_pronoun)).filterMap
          (fun a => (findSentence sdf a.ID a.sentence_id).map
            (fun s => outRowAssoc (pronoun_row_to_output a s))) ∧
      ∀ row : DbAnnRow, row.no_pronoun.getD false = false →
        row.position.getD 0 = row.sentence_id →
        ∀ s, findSentence sdf row.poem_id row.sentence_id = some s →
          annotationOfImported (outRowAssoc (pronoun_row_to_output (rowToRec row) s)) =
            rowToRec row := by
  constructor
  · have himp : import_csv (build_export_csv annotations sdf) =
        (exportRows annotations sdf).map (fun r => OUTPUT_COLUMNS.zip r) := by
      rw [import_csv, parseCsv_build_export_csv annotations sdf h]
    rw [himp, exportRows, List.map_filterMap]
    congr 1
    funext a
    cases hf : findSentence sdf a.ID a.sentence_id <;>
      simp [hf, outRowAssoc]
  · intro row hno hpos s hs
    obtain ⟨hsID, _⟩ := findSentence_eq_some sdf row.poem_id row.sentence_id s hs
    rw [annotationOfImported_outRowAssoc]
    rw [rowToRec, if_neg (by simp [hno])]
    simp [pronoun_row_to_output, hsID, hpos, parseIntStr_intStr, boolStr_beq_true]

theorem c6_witness :
    import_csv (build_export_csv [exAnnRec] [exSentRow]) =
        ([exAnnRec].filter (fun a => !a.no_pronoun)).filterMap
          (fun a => (findSentence [exSentRow] a.ID a.sentence_id).map
            (fun s => outRowAssoc (pronoun_row_to_output a s))) ∧
      annotationOfImported
          (outRowAssoc (pronoun_row_to_output (rowToRec exDbRow) exSentRow)) =
        rowToRec exDbRow :=
  ⟨(c6_export_import_round_trip [exAnnRec] [exSentRow] (by decide)).1,
   (c6_export_import_round_trip [exAnnRec] [exSentRow] (by decide)).2 exDbRow
     (by decide) (by decide) exSentRow (by decide)⟩

theorem length_filterMap_eq_length_filter {α β : Type} (f : α → Option β)
    (l : List α) :
    (l.filterMap f).length = (l.filter (fun a => (f a).isSome)).length := by
  induction l with
  | nil => rfl
  | cons a l ih =>
    cases hfa : f a <;> simp [List.filterMap_cons, List.filter_cons, hfa, ih]

/-- C10: `build_export_csv` returns the empty string exactly when the
annotation list has no pronoun annotation, and silently omits every pronoun
annotation whose (poem ID, sentence id) key has no row in the sentences
table: the parsed export has one header row plus exactly one data row per
pronoun annotation whose sentence lookup succeeds. -/
theorem c10_export_empty_and_skips (annotations : List AnnotationRec)
    (sdf : List SentenceRow) :
    (annotations.filter (fun a => !a.no_pronoun) = [] →
        build_export_csv annotations sdf = "") ∧
      (annotations.filter (fun a => !a.no_pronoun) ≠ [] →
        (parseCsv (build_export_csv annotations sdf)).length =
          1 + ((annotations.filter (fun a => !a.no_pronoun)).filter
            (fun a => (findSentence sdf a.ID a.sentence_id).isSome)).length) := by
  constructor
  · intro h
    rw [build_export_csv, if_pos]
    simp [List.isEmpty_iff, h]
  · intro h
    rw [parseCsv_build_export_csv annotations sdf h, List.length_cons,
      exportRows, length_filterMap_eq_length_filter]
    have : ∀ a : AnnotationRec,
        ((findSentence sdf a.ID a.sentence_id).map
          (fun s => outRowFields (pronoun_row_to_output a s))).isSome =
        (findSentence sdf a.ID a.sentence_id).isSome := by
      intro a
      cases findSentence sdf a.ID a.sentence_id <;> rfl
    simp only [this]
    omega

theorem c10_witness :
    build_export_csv [exMarkerRec] [exSentRow] = "" ∧
      (parseCsv (build_export_csv [exAnnRec, exAnnRecNoMatch] [exSentRow])).length =
        1 + (([exAnnRec, exAnnRecNoMatch].filter (fun a => !a.no_pronoun)).filter
          (fun a => (findSentence [exSentRow] a.ID a.sentence_id).isSome)).length :=
  ⟨(c10_export_empty_and_skips [exMarkerRec] [exSentRow]).1 (by decide),
   (c10_export_empty_and_skips [exAnnRec, exAnnRecNoMatch] [exSentRow]).2 (by decide)⟩

theorem c8_witness :
    (∀ r ∈ buildRecords "p1" 1 [exForm],
        r.no_pronoun = none ∧ r.pronoun.getD "" ≠ "") ∧
      buildRecords "p1" 1 [exForm] =
        buildRecords "p1" 1
          ([exForm].filter (fun p => !(pyStrip (p.pronoun.getD "") == ""))) ∧
      ([exForm] ≠ [] → (∀ p ∈ [exForm], pyStrip (p.pronoun.getD "") = "") →
        do_save [exRow] "ann" "p1" 1 [exForm] = none) :=
  c8_pronoun_validation [exRow] "ann" "p1" 1 [exForm]

end AnnotApp
